import Mathlib

/-!
Shallow embedding of the `obs` gRPC tracing interceptor layer
(`tracingUnaryClientInterceptor`, `tracingStreamClientInterceptor`,
`tracingUnaryServerInterceptor`, `tracingStreamServerInterceptor`,
the stream proxy wrappers `clientStreamInterceptor` /
`serverStreamInterceptor`, and the carrier adapter `grpcTraceMD`).

External collaborators (the opentracing tracer, the gRPC runtime, the
underlying stream) are modelled as oracles: their results are inputs to
the embedded interceptor functions.  Go's in-place mutation of the span
and the stream-proxy counters is modelled by explicit state passing.
-/

namespace Obs

/-- Go `error` values, compared by identity in the source (`err == io.EOF`);
modelled as named tokens. -/
structure GoErr where
  name : String
deriving DecidableEq, Repr

/-- The `io.EOF` sentinel used by `clientStreamInterceptor.RecvMsg`. -/
def ioEOF : GoErr := ⟨"io.EOF"⟩

/-- `opentracing.ErrSpanContextNotFound`, the expected "no parent context"
outcome of `tracer.Extract`. -/
def errSpanContextNotFound : GoErr := ⟨"opentracing.ErrSpanContextNotFound"⟩

/-- Values a span tag can take (`ext.SpanKind`, `ext.Error`,
`span.SetTag` with string or integer values). -/
inductive TagVal where
  | str (s : String)
  | bool (b : Bool)
  | nat (n : Nat)
deriving DecidableEq, Repr

/-- An extracted/injected span context: opaque token from the tracer. -/
structure SpanCtx where
  id : Nat
deriving DecidableEq, Repr

/-- Assoc-list update used by `span.SetTag` (opentracing `SetTag`
overwrites the value stored under the key). -/
def setAssoc : List (String × TagVal) → String → TagVal → List (String × TagVal)
  | [], k, v => [(k, v)]
  | (k', v') :: rest, k, v =>
      if k' = k then (k, v) :: rest else (k', v') :: setAssoc rest k v

/-- The mutable state of one tracer span: its parent (none = root span),
its tags, and how many times its completion callback `done` has run. -/
structure SpanState where
  parent : Option SpanCtx
  tags : List (String × TagVal)
  finishCount : Nat
deriving DecidableEq, Repr

/-- Modelled from the spec: the flight recorder's `WithNewSpan` /
`WithNewSpanContext` (file `flight_recorder.go`, not under `src/`) starts
a fresh span — a child of the given parent span context, or a root span
when none is given — with no tags and an unused completion callback. -/
def SpanState.start (parent : Option SpanCtx) : SpanState :=
  { parent := parent, tags := [], finishCount := 0 }

/-- `span.SetTag key val` (also `ext.SpanKind.Set` / `ext.Error.Set`). -/
def SpanState.setTag (s : SpanState) (k : String) (v : TagVal) : SpanState :=
  { s with tags := setAssoc s.tags k v }

/-- Modelled from the spec: the completion callback `done` returned by the
flight recorder finalizes the span; each invocation is counted. -/
def SpanState.finish (s : SpanState) : SpanState :=
  { s with finishCount := s.finishCount + 1 }

/-- Read a tag off the span. -/
def SpanState.getTag (s : SpanState) (k : String) : Option TagVal :=
  (s.tags.find? (fun p => p.1 == k)).map (fun p => p.2)

/-- gRPC wire metadata `metadata.MD`: a mapping from string key to an
ordered list of string values, modelled as an assoc list. -/
abbrev MD := List (String × List String)

/-- `grpcTraceMD.Set`: `g[key] = append(g[key], val)` — appends `val` to
the list stored under `key`, creating the key when absent. -/
def mdSet (md : MD) (key val : String) : MD :=
  match md with
  | [] => [(key, [val])]
  | (k, vs) :: rest =>
      if k = key then (k, vs ++ [val]) :: rest else (k, vs) :: mdSet rest key val

/-- The (key, encoded value) pairs visited by the two nested loops of
`grpcTraceMD.ForeachKey` (`for k, vs := range g { for _, v := range vs }`). -/
def mdPairs (md : MD) : List (String × String) :=
  md.flatMap (fun kv => kv.2.map (fun v => (kv.1, v)))

/-- `grpcTraceMD.ForeachKey` over an explicit pair list: for each pair,
`metadata.DecodeKeyValue` (oracle `decode`) either fails — iteration stops
and the decode error is returned — or yields the canonical pair, which is
passed to the handler; a handler error also stops iteration.  The handler
is a Go closure with captured mutable state, modelled by state passing. -/
def foreachKeyPairs {σ : Type} (decode : String → String → Except GoErr (String × String))
    (handler : σ → String → String → σ × Option GoErr) :
    σ → List (String × String) → σ × Option GoErr
  | s, [] => (s, none)
  | s, (k, v) :: rest =>
    match decode k v with
    | .error e => (s, some e)
    | .ok (rk, rv) =>
      match handler s rk rv with
      | (s', some e) => (s', some e)
      | (s', none) => foreachKeyPairs decode handler s' rest

/-- `grpcTraceMD.ForeachKey` on metadata. -/
def foreachKey {σ : Type} (decode : String → String → Except GoErr (String × String))
    (handler : σ → String → String → σ × Option GoErr) (s : σ) (md : MD) :
    σ × Option GoErr :=
  foreachKeyPairs decode handler s (mdPairs md)

/-- The visiting handler instrumented to record every pair it is passed:
state is the list of visited (key, value) pairs, in order. -/
def logHandler (acc : List (String × String)) (k v : String) :
    List (String × String) × Option GoErr :=
  (acc ++ [(k, v)], none)

/-! ### A tiny heap of metadata objects

Go metadata maps are mutable objects passed by reference; `md.Copy()`
allocates a fresh object and `grpcTraceMD.Set` mutates in place.  To state
that the caller's metadata object is never mutated we model a heap of
`MD` cells addressed by `Nat` references. -/

/-- A heap of metadata objects. -/
structure Heap where
  cells : List MD
deriving Repr

/-- Allocate a fresh metadata object, returning its reference. -/
def Heap.alloc (h : Heap) (m : MD) : Heap × Nat :=
  (⟨h.cells ++ [m]⟩, h.cells.length)

/-- Dereference (out-of-range reads give the empty map; never exercised). -/
def Heap.get (h : Heap) (r : Nat) : MD :=
  h.cells[r]?.getD []

/-- In-place update of the object at `r`. -/
def Heap.set (h : Heap) (r : Nat) (m : MD) : Heap :=
  ⟨h.cells.set r m⟩

/-- The metadata phase shared by both client interceptors
(`tracingUnaryClientInterceptor` lines 36–47, `tracingStreamClientInterceptor`
lines 72–83): when the context carries metadata (`callerRef`), copy it
(`md.Copy()` — a fresh object with the same contents), otherwise allocate an
empty map (`metadata.New(nil)`); then `tracer.Inject` performs its carrier
`Set(key, val)` calls (`injectPairs`, in order) against the fresh object.
Returns the heap after the phase and the reference attached to the outgoing
context by `metadata.NewContext`. -/
def clientMDPhase (h : Heap) (callerRef : Option Nat)
    (injectPairs : List (String × String)) : Heap × Nat :=
  let a := match callerRef with
    | none => h.alloc []
    | some cr => h.alloc (h.get cr)
  let h1 := a.1
  let r := a.2
  let h2 := injectPairs.foldl (fun hh kv => hh.set r (mdSet (hh.get r) kv.1 kv.2)) h1
  (h2, r)

/-- Value-level form of the same phase: the contents of the metadata
attached to the outgoing context. -/
def outboundMD (callerMD : Option MD) (injectPairs : List (String × String)) : MD :=
  let md := match callerMD with
    | none => ([] : MD)
    | some m => m
  injectPairs.foldl (fun m kv => mdSet m kv.1 kv.2) md

/-- `md, ok := metadata.FromContext(ctx); if !ok { md = metadata.New(nil) }`
as it appears in both server interceptors: the inbound metadata, or an
empty map when the context carries none. -/
def fromContextMD : Option MD → MD
  | none => []
  | some m => m

/-! ### Contexts -/

/-- Call contexts: an opaque base, extended by the flight recorder's new
span session (`WithNewSpan` / `WithNewSpanContext`), by
`opentracing.ContextWithSpan`, or by `metadata.NewContext`. -/
inductive Ctx where
  | base (id : Nat)
  | withSession (parent : Ctx) (spanId : Nat)
  | withSpan (parent : Ctx) (spanId : Nat)
  | withMD (parent : Ctx) (md : MD)
deriving DecidableEq, Repr

/-- Modelled from the spec: `tracing.Label.ErrorMessage` (package
`obs/tracing`, not under `src/`), the span tag key under which the
handler error's rendered message is stored. -/
def errorMessageLabel : String := "error.message"

/-! ### Unary client interceptor (`tracingUnaryClientInterceptor`) -/

/-- Oracles for one unary client call: the metadata carried by the caller's
context, the carrier `Set` calls performed by `tracer.Inject` together with
its returned error, and the wrapped invoker's returned error. -/
structure UnaryClientEnv where
  callerMD : Option MD
  injectPairs : List (String × String)
  injectErr : Option GoErr
  invokerErr : Option GoErr

/-- Observable outcome of one unary client call. -/
structure UnaryClientOut where
  span : SpanState
  warns : List String
  infos : List String
  outMD : MD
  invokerCalls : Nat
  retErr : Option GoErr
deriving Repr

/-- `tracingUnaryClientInterceptor` (lines 22–57): start a span tagged as a
client call; copy-or-create outbound metadata and let the tracer inject into
it (a warning on inject failure); attach the metadata to the context and
invoke; on invoker error log at info, tag the span errored, and return the
error; the deferred `done()` finalizes the span on every path. -/
def runUnaryClient (env : UnaryClientEnv) : UnaryClientOut :=
  let span := (SpanState.start none).setTag "span.kind" (TagVal.str "client")
  let md := outboundMD env.callerMD env.injectPairs
  let warns := match env.injectErr with
    | some _ => ["tracer_inject"]
    | none => []
  match env.invokerErr with
  | some e =>
    { span := ((span.setTag "error" (TagVal.bool true)).finish),
      warns := warns, infos := ["error in gRPC"], outMD := md,
      invokerCalls := 1, retErr := some e }
  | none =>
    { span := span.finish, warns := warns, infos := [], outMD := md,
      invokerCalls := 1, retErr := none }

/-! ### Unary server interceptor (`tracingUnaryServerInterceptor`) -/

/-- Oracles for one unary server call: the inbound metadata, the tracer's
`Extract` (a function of the carrier's metadata), and the handler's
response/error.  `α` is the handler's response type. -/
structure UnaryServerEnv (α : Type) where
  inboundMD : Option MD
  extract : MD → Except GoErr SpanCtx
  handlerResp : α
  handlerErr : Option GoErr

/-- Observable outcome of one unary server call. -/
structure UnaryServerOut (α : Type) where
  span : SpanState
  warns : List String
  infos : List String
  handlerCalls : Nat
  retResp : α
  retErr : Option GoErr

/-- `tracingUnaryServerInterceptor` (lines 95–128): read inbound metadata
(empty when absent) and extract a parent span context from it; start a span
with that parent (root when extraction failed), tagged server-kind with the
process hostname; warn only on extraction errors other than
`ErrSpanContextNotFound`; invoke the handler with the span-bearing context;
on handler error log at info, tag errored, record the error message tag, and
return `(resp, err)` unchanged; the deferred `done()` finalizes the span. -/
def runUnaryServer {α : Type} (host : String) (env : UnaryServerEnv α) :
    UnaryServerOut α :=
  let md := fromContextMD env.inboundMD
  let ext := env.extract md
  let parent := ext.toOption
  let span := (((SpanState.start parent).setTag "span.kind" (TagVal.str "server")).setTag
      "grpc.hostname" (TagVal.str host))
  let warns := match ext with
    | .error e => if e = errSpanContextNotFound then [] else ["tracer_extract"]
    | .ok _ => []
  match env.handlerErr with
  | some e =>
    { span := (((span.setTag "error" (TagVal.bool true)).setTag errorMessageLabel
        (TagVal.str e.name)).finish),
      warns := warns, infos := ["error in gRPC"], handlerCalls := 1,
      retResp := env.handlerResp, retErr := some e }
  | none =>
    { span := span.finish, warns := warns, infos := [], handlerCalls := 1,
      retResp := env.handlerResp, retErr := none }

/-! ### Client stream proxy (`clientStreamInterceptor`) -/

/-- State of the `clientStreamInterceptor` wrapper: the owned span and its
`inCount` / `outCount` message counters. -/
structure ClientStreamSt where
  span : SpanState
  inCount : Nat
  outCount : Nat
deriving DecidableEq, Repr

/-- `clientStreamInterceptor.SendMsg` (lines 189–192): increment the sent
counter, then delegate; the underlying result (`res`) is returned unchanged. -/
def csiSendMsg (s : ClientStreamSt) (res : Option GoErr) :
    ClientStreamSt × Option GoErr :=
  ({ s with outCount := s.outCount + 1 }, res)

/-- `clientStreamInterceptor.RecvMsg` (lines 193–204): delegate first; when
the underlying stream reports `io.EOF`, tag the span with the final
received/sent counts, invoke the completion callback, and return `io.EOF`;
on any other result (success or error) increment the received counter and
return the result unchanged. -/
def csiRecvMsg (s : ClientStreamSt) (res : Option GoErr) :
    ClientStreamSt × Option GoErr :=
  if res = some ioEOF then
    let sp := (s.span.setTag "grpc.stream_received" (TagVal.nat s.inCount)).setTag
        "grpc.stream_sent" (TagVal.nat s.outCount)
    ({ s with span := sp.finish }, res)
  else
    ({ s with inCount := s.inCount + 1 }, res)

/-- One caller-driven stream operation together with the underlying
stream's result for it (the underlying stream is an oracle). -/
inductive StreamOp where
  | send (res : Option GoErr)
  | recv (res : Option GoErr)
deriving DecidableEq, Repr

/-- Effect of one caller operation on the client wrapper. -/
def clientStreamStep (s : ClientStreamSt) : StreamOp → ClientStreamSt
  | .send r => (csiSendMsg s r).1
  | .recv r => (csiRecvMsg s r).1

/-- Run a sequence of caller operations against the client wrapper. -/
def runClientStream (s : ClientStreamSt) (ops : List StreamOp) : ClientStreamSt :=
  ops.foldl clientStreamStep s

/-! ### Client streaming interceptor (`tracingStreamClientInterceptor`) -/

/-- Oracles for opening one client stream: context metadata, the tracer's
inject behaviour, and the `streamer`'s returned error. -/
structure StreamClientEnv where
  callerMD : Option MD
  injectPairs : List (String × String)
  injectErr : Option GoErr
  streamerErr : Option GoErr

/-- Observable outcome of the stream-open call: the installed wrapper (with
its span), logs, outbound metadata contents, and the returned error. -/
structure StreamClientOut where
  wrapper : ClientStreamSt
  warns : List String
  infos : List String
  outMD : MD
  retErr : Option GoErr
deriving Repr

/-- `tracingStreamClientInterceptor` (lines 59–93): same span start and
metadata/injection steps as the unary client, then call `streamer`; on a
non-nil open error log at info and tag the span errored; in every case
return the wrapper `{cs, span, done, 0, 0}` together with the streamer's
error.  There is no deferred `done()` here: the completion callback is only
ever invoked from `RecvMsg` on `io.EOF`. -/
def runStreamClient (env : StreamClientEnv) : StreamClientOut :=
  let span := (SpanState.start none).setTag "span.kind" (TagVal.str "client")
  let md := outboundMD env.callerMD env.injectPairs
  let warns := match env.injectErr with
    | some _ => ["tracer_inject"]
    | none => []
  match env.streamerErr with
  | some e =>
    let w : ClientStreamSt :=
      { span := span.setTag "error" (TagVal.bool true), inCount := 0, outCount := 0 }
    { wrapper := w,
      warns := warns, infos := ["error in gRPC"], outMD := md, retErr := some e }
  | none =>
    { wrapper := { span := span, inCount := 0, outCount := 0 },
      warns := warns, infos := [], outMD := md, retErr := none }

/-! ### Server stream proxy (`serverStreamInterceptor`) -/

/-- State of the `serverStreamInterceptor` wrapper: span, counters, and the
stored derived context returned by its `Context()` method. -/
structure ServerStreamSt where
  span : SpanState
  inCount : Nat
  outCount : Nat
  ctx : Ctx
deriving DecidableEq, Repr

/-- `serverStreamInterceptor.Context` (lines 222–224): returns the stored
context, not the underlying stream's. -/
def ssiContext (s : ServerStreamSt) : Ctx := s.ctx

/-- `serverStreamInterceptor.SendMsg` (lines 226–229): increment the sent
counter, then delegate. -/
def ssiSendMsg (s : ServerStreamSt) (res : Option GoErr) :
    ServerStreamSt × Option GoErr :=
  ({ s with outCount := s.outCount + 1 }, res)

/-- `serverStreamInterceptor.RecvMsg` (lines 231–234): increment the
received counter before delegating, on every call, whatever the underlying
result. -/
def ssiRecvMsg (s : ServerStreamSt) (res : Option GoErr) :
    ServerStreamSt × Option GoErr :=
  ({ s with inCount := s.inCount + 1 }, res)

/-- `serverStreamInterceptor.finish` (lines 236–240): tag the span with the
final received/sent counts and invoke the completion callback. -/
def ssiFinish (s : ServerStreamSt) : ServerStreamSt :=
  { s with span := (((s.span.setTag "grpc.stream_received" (TagVal.nat s.inCount)).setTag
      "grpc.stream_sent" (TagVal.nat s.outCount)).finish) }

/-- Effect of one handler operation on the server wrapper. -/
def serverStreamStep (s : ServerStreamSt) : StreamOp → ServerStreamSt
  | .send r => (ssiSendMsg s r).1
  | .recv r => (ssiRecvMsg s r).1

/-! ### Server streaming interceptor (`tracingStreamServerInterceptor`) -/

/-- Oracles for one server streaming call: the stream's original context,
inbound metadata, the tracer's `Extract`, the span id the flight recorder
assigns, and the handler's behaviour (the stream operations it performs on
the wrapper, and its returned error). -/
structure StreamServerEnv where
  origCtx : Ctx
  inboundMD : Option MD
  extract : MD → Except GoErr SpanCtx
  newSpanId : Nat
  handlerOps : List StreamOp
  handlerErr : Option GoErr

/-- Observable outcome of one server streaming call. -/
structure StreamServerOut where
  ssi : ServerStreamSt
  warns : List String
  infos : List String
  retErr : Option GoErr

/-- `tracingStreamServerInterceptor` (lines 130–164): extract a parent span
context from the stream's inbound metadata; start a span (root when
extraction failed) tagged server-kind with the hostname; warn only on
extraction errors other than `ErrSpanContextNotFound`; derive a
span-bearing context via `ContextWithSpan` and store it in the wrapper
passed to the handler; run the handler; on handler error log at info, tag
the span errored and record the error message; the deferred `ssi.finish()`
then tags the final counts and finalizes the span, on every path. -/
def runStreamServer (host : String) (env : StreamServerEnv) : StreamServerOut :=
  let md := fromContextMD env.inboundMD
  let ext := env.extract md
  let parent := ext.toOption
  let span := (((SpanState.start parent).setTag "span.kind" (TagVal.str "server")).setTag
      "grpc.hostname" (TagVal.str host))
  let warns := match ext with
    | .error e => if e = errSpanContextNotFound then [] else ["tracer_extract"]
    | .ok _ => []
  let dctx := Ctx.withSpan (Ctx.withSession env.origCtx env.newSpanId) env.newSpanId
  let ssi0 : ServerStreamSt := { span := span, inCount := 0, outCount := 0, ctx := dctx }
  let ssi1 := env.handlerOps.foldl serverStreamStep ssi0
  match env.handlerErr with
  | some e =>
    let sp2 := (ssi1.span.setTag "error" (TagVal.bool true)).setTag
        errorMessageLabel (TagVal.str e.name)
    let ssi2 := { ssi1 with span := sp2 }
    { ssi := ssiFinish ssi2, warns := warns, infos := ["error in gRPC"], retErr := some e }
  | none =>
    { ssi := ssiFinish ssi1, warns := warns, infos := [], retErr := none }

/-- Is this operation a `SendMsg` call? -/
def isSendOp : StreamOp → Bool
  | .send _ => true
  | .recv _ => false

/-- Is this operation a `RecvMsg` call? -/
def isRecvOp : StreamOp → Bool
  | .send _ => false
  | .recv _ => true

/-- Is this a `RecvMsg` call whose underlying result is `io.EOF`? -/
def isEOFRecv (op : StreamOp) : Bool :=
  decide (op = StreamOp.recv (some ioEOF))

/-! ## Helper lemmas -/

theorem setAssoc_find_self (l : List (String × TagVal)) (k : String) (v : TagVal) :
    (setAssoc l k v).find? (fun p => p.1 == k) = some (k, v) := by
  induction l with
  | nil => simp [setAssoc, List.find?]
  | cons hd tl ih =>
    by_cases hk : hd.1 = k
    · simp [setAssoc, hk, List.find?]
    · simp only [setAssoc]
      rw [if_neg ?_]
      · simp only [List.find?]
        rw [show (hd.1 == k) = false by simp [hk]]
        exact ih
      · obtain ⟨a, b⟩ := hd
        simpa using hk

theorem setAssoc_find_other (l : List (String × TagVal)) (k k' : String) (v : TagVal)
    (hne : k' ≠ k) :
    (setAssoc l k v).find? (fun p => p.1 == k') = l.find? (fun p => p.1 == k') := by
  induction l with
  | nil =>
    simp only [setAssoc, List.find?]
    rw [show (k == k') = false by simp; exact fun h => hne h.symm]
  | cons hd tl ih =>
    by_cases hk : hd.1 = k
    · simp only [setAssoc]
      obtain ⟨a, b⟩ := hd
      simp only at hk
      rw [if_pos hk]
      simp only [List.find?]
      rw [show (k == k') = false by simp; exact fun h => hne h.symm,
        show (a == k') = false by simp [hk]; exact fun h => hne h.symm]
    · simp only [setAssoc]
      rw [if_neg ?_]
      · simp only [List.find?]
        cases hfind : (hd.1 == k') <;> simp [ih]
      · obtain ⟨a, b⟩ := hd
        simpa using hk

theorem getTag_setTag_self (s : SpanState) (k : String) (v : TagVal) :
    (s.setTag k v).getTag k = some v := by
  simp [SpanState.setTag, SpanState.getTag, setAssoc_find_self]

theorem getTag_setTag_other (s : SpanState) (k k' : String) (v : TagVal) (hne : k' ≠ k) :
    (s.setTag k v).getTag k' = s.getTag k' := by
  simp [SpanState.setTag, SpanState.getTag, setAssoc_find_other _ _ _ _ hne]

theorem setTag_parent (s : SpanState) (k : String) (v : TagVal) :
    (s.setTag k v).parent = s.parent := rfl

theorem setTag_finishCount (s : SpanState) (k : String) (v : TagVal) :
    (s.setTag k v).finishCount = s.finishCount := rfl

/-- Running the client wrapper over operations none of which is a
`RecvMsg` returning `io.EOF` leaves the span untouched and adds the number
of sends to `outCount` and the number of receives to `inCount`. -/
theorem runClientStream_no_eof (ops : List StreamOp)
    (h : ∀ op ∈ ops, op ≠ StreamOp.recv (some ioEOF)) (s : ClientStreamSt) :
    (runClientStream s ops).span = s.span
    ∧ (runClientStream s ops).inCount = s.inCount + ops.countP isRecvOp
    ∧ (runClientStream s ops).outCount = s.outCount + ops.countP isSendOp := by
  induction ops generalizing s with
  | nil => simp [runClientStream]
  | cons op rest ih =>
    have hop := h op (by simp)
    have hrest : ∀ op ∈ rest, op ≠ StreamOp.recv (some ioEOF) :=
      fun o ho => h o (by simp [ho])
    cases op with
    | send r =>
      have step : clientStreamStep s (.send r) = { s with outCount := s.outCount + 1 } := rfl
      have := ih hrest { s with outCount := s.outCount + 1 }
      refine ⟨?_, ?_, ?_⟩ <;>
        simp only [runClientStream, List.foldl_cons, step] at this ⊢ <;>
        simp [this.1, this.2.1, this.2.2, List.countP_cons, isRecvOp, isSendOp] <;> omega
    | recv r =>
      have hr : ¬ (r = some ioEOF) := fun hEq => hop (by rw [hEq])
      have step : clientStreamStep s (.recv r) = { s with inCount := s.inCount + 1 } := by
        simp [clientStreamStep, csiRecvMsg, hr]
      have := ih hrest { s with inCount := s.inCount + 1 }
      refine ⟨?_, ?_, ?_⟩ <;>
        simp only [runClientStream, List.foldl_cons, step] at this ⊢ <;>
        simp [this.1, this.2.1, this.2.2, List.countP_cons, isRecvOp, isSendOp] <;> omega

/-- Over any operation sequence, the client wrapper's span completion
callback runs once per `RecvMsg` returning `io.EOF`. -/
theorem runClientStream_finishCount (ops : List StreamOp) (s : ClientStreamSt) :
    (runClientStream s ops).span.finishCount
      = s.span.finishCount + ops.countP isEOFRecv := by
  induction ops generalizing s with
  | nil => simp [runClientStream]
  | cons op rest ih =>
    cases op with
    | send r =>
      have step : clientStreamStep s (.send r) = { s with outCount := s.outCount + 1 } := rfl
      simp only [runClientStream, List.foldl_cons, step] at ih ⊢
      rw [ih]
      simp [List.countP_cons, isEOFRecv]
    | recv r =>
      by_cases hr : r = some ioEOF
      · subst hr
        have step : clientStreamStep s (.recv (some ioEOF))
            = { s with span := ((s.span.setTag "grpc.stream_received" (TagVal.nat s.inCount)).setTag
                "grpc.stream_sent" (TagVal.nat s.outCount)).finish } := by
          simp [clientStreamStep, csiRecvMsg]
        simp only [runClientStream, List.foldl_cons, step] at ih ⊢
        rw [ih]
        simp [SpanState.finish, SpanState.setTag, List.countP_cons, isEOFRecv]
        omega
      · have step : clientStreamStep s (.recv r) = { s with inCount := s.inCount + 1 } := by
          simp [clientStreamStep, csiRecvMsg, hr]
        simp only [runClientStream, List.foldl_cons, step] at ih ⊢
        rw [ih]
        simp [List.countP_cons, isEOFRecv, hr]

/-- Handler operations on the server wrapper touch only the counters:
the span and the stored context are unchanged, and the counters add the
numbers of receives and sends. -/
theorem serverStream_foldl (ops : List StreamOp) (s : ServerStreamSt) :
    (ops.foldl serverStreamStep s).span = s.span
    ∧ (ops.foldl serverStreamStep s).ctx = s.ctx
    ∧ (ops.foldl serverStreamStep s).inCount = s.inCount + ops.countP isRecvOp
    ∧ (ops.foldl serverStreamStep s).outCount = s.outCount + ops.countP isSendOp := by
  induction ops generalizing s with
  | nil => simp
  | cons op rest ih =>
    cases op with
    | send r =>
      have step : serverStreamStep s (.send r) = { s with outCount := s.outCount + 1 } := rfl
      have := ih { s with outCount := s.outCount + 1 }
      refine ⟨?_, ?_, ?_, ?_⟩ <;>
        simp only [List.foldl_cons, step] at this ⊢ <;>
        simp [this.1, this.2.1, this.2.2.1, this.2.2.2, List.countP_cons, isRecvOp,
          isSendOp] <;> omega
    | recv r =>
      have step : serverStreamStep s (.recv r) = { s with inCount := s.inCount + 1 } := rfl
      have := ih { s with inCount := s.inCount + 1 }
      refine ⟨?_, ?_, ?_, ?_⟩ <;>
        simp only [List.foldl_cons, step] at this ⊢ <;>
        simp [this.1, this.2.1, this.2.2.1, this.2.2.2, List.countP_cons, isRecvOp,
          isSendOp] <;> omega

theorem serverStream_foldl_span (ops : List StreamOp) (s : ServerStreamSt) :
    (ops.foldl serverStreamStep s).span = s.span :=
  (serverStream_foldl ops s).1

theorem serverStream_foldl_ctx (ops : List StreamOp) (s : ServerStreamSt) :
    (ops.foldl serverStreamStep s).ctx = s.ctx :=
  (serverStream_foldl ops s).2.1

theorem serverStream_foldl_inCount (ops : List StreamOp) (s : ServerStreamSt) :
    (ops.foldl serverStreamStep s).inCount = s.inCount + ops.countP isRecvOp :=
  (serverStream_foldl ops s).2.2.1

theorem serverStream_foldl_outCount (ops : List StreamOp) (s : ServerStreamSt) :
    (ops.foldl serverStreamStep s).outCount = s.outCount + ops.countP isSendOp :=
  (serverStream_foldl ops s).2.2.2

theorem getTag_finish (s : SpanState) (k : String) :
    (s.finish).getTag k = s.getTag k := rfl

theorem finish_finishCount (s : SpanState) :
    (s.finish).finishCount = s.finishCount + 1 := rfl

/-- The wrapper installed by the client streaming interceptor starts with
zeroed counters and an unfinalized span, on both open outcomes. -/
theorem streamClient_wrapper_initial (env : StreamClientEnv) :
    (runStreamClient env).wrapper.inCount = 0
    ∧ (runStreamClient env).wrapper.outCount = 0
    ∧ (runStreamClient env).wrapper.span.finishCount = 0 := by
  cases h : env.streamerErr <;>
    simp [runStreamClient, h, SpanState.setTag, SpanState.start]

/-- Draining a client stream: after operations without an `io.EOF` receive
followed by one `io.EOF` receive, the span carries the final counter tags
and its completion callback has run exactly once more. -/
theorem clientStream_drain_eof (w : ClientStreamSt) (pre : List StreamOp)
    (h : ∀ op ∈ pre, op ≠ StreamOp.recv (some ioEOF)) :
    (runClientStream w (pre ++ [StreamOp.recv (some ioEOF)])).span.getTag
        "grpc.stream_received" = some (TagVal.nat (w.inCount + pre.countP isRecvOp))
    ∧ (runClientStream w (pre ++ [StreamOp.recv (some ioEOF)])).span.getTag
        "grpc.stream_sent" = some (TagVal.nat (w.outCount + pre.countP isSendOp))
    ∧ (runClientStream w (pre ++ [StreamOp.recv (some ioEOF)])).span.finishCount
        = w.span.finishCount + 1 := by
  obtain ⟨hspan, hin, hout⟩ := runClientStream_no_eof pre h w
  have key : runClientStream w (pre ++ [StreamOp.recv (some ioEOF)])
      = clientStreamStep (runClientStream w pre) (StreamOp.recv (some ioEOF)) := by
    simp [runClientStream, List.foldl_append]
  have hne : ("grpc.stream_received" : String) ≠ "grpc.stream_sent" := by decide
  have stepSpan : (clientStreamStep (runClientStream w pre) (StreamOp.recv (some ioEOF))).span
      = (((runClientStream w pre).span.setTag "grpc.stream_received"
            (TagVal.nat (runClientStream w pre).inCount)).setTag "grpc.stream_sent"
            (TagVal.nat (runClientStream w pre).outCount)).finish := by
    simp [clientStreamStep, csiRecvMsg]
  refine ⟨?_, ?_, ?_⟩
  · rw [key, stepSpan, getTag_finish, getTag_setTag_other _ _ _ _ hne, getTag_setTag_self, hin]
  · rw [key, stepSpan, getTag_finish, getTag_setTag_self, hout]
  · rw [key, stepSpan, finish_finishCount, setTag_finishCount, setTag_finishCount, hspan]

/-- The metadata object freshly allocated by `alloc` holds the given
contents. -/
theorem Heap.get_alloc_new (h : Heap) (m : MD) :
    (h.alloc m).1.get h.cells.length = m := by
  simp [Heap.alloc, Heap.get, List.getElem?_concat_length]

/-- Allocation leaves every existing metadata object unchanged. -/
theorem Heap.get_alloc_old (h : Heap) (m : MD) (q : Nat) (hq : q < h.cells.length) :
    (h.alloc m).1.get q = h.get q := by
  simp [Heap.alloc, Heap.get, List.getElem?_append_left hq]

theorem Heap.length_alloc (h : Heap) (m : MD) :
    (h.alloc m).1.cells.length = h.cells.length + 1 := by
  simp [Heap.alloc]

theorem Heap.get_set_self (h : Heap) (r : Nat) (m : MD) (hr : r < h.cells.length) :
    (h.set r m).get r = m := by
  simp [Heap.set, Heap.get, List.getElem?_set_self hr]

theorem Heap.get_set_other (h : Heap) (r q : Nat) (m : MD) (hq : q ≠ r) :
    (h.set r m).get q = h.get q := by
  simp [Heap.set, Heap.get, List.getElem?_set_ne (Ne.symm hq)]

theorem Heap.length_set (h : Heap) (r : Nat) (m : MD) :
    (h.set r m).cells.length = h.cells.length := by
  simp [Heap.set]

/-- Repeated in-place `Set` calls against the object at `r` (the inject
loop) touch only that object and accumulate exactly the value-level
`mdSet` folds. -/
theorem heap_fold_inject (pairs : List (String × String)) (r : Nat) :
    ∀ (hh : Heap), r < hh.cells.length →
      (∀ q, q ≠ r →
        (pairs.foldl (fun a kv => a.set r (mdSet (a.get r) kv.1 kv.2)) hh).get q = hh.get q)
      ∧ (pairs.foldl (fun a kv => a.set r (mdSet (a.get r) kv.1 kv.2)) hh).get r
          = pairs.foldl (fun m kv => mdSet m kv.1 kv.2) (hh.get r)
      ∧ (pairs.foldl (fun a kv => a.set r (mdSet (a.get r) kv.1 kv.2)) hh).cells.length
          = hh.cells.length := by
  induction pairs with
  | nil => exact fun hh hr => ⟨fun q hq => rfl, rfl, rfl⟩
  | cons kv rest ih =>
    intro hh hr
    have hr1 : r < (hh.set r (mdSet (hh.get r) kv.1 kv.2)).cells.length := by
      rw [Heap.length_set]; exact hr
    have H := ih (hh.set r (mdSet (hh.get r) kv.1 kv.2)) hr1
    refine ⟨?_, ?_, ?_⟩
    · intro q hq
      simp only [List.foldl_cons]
      rw [H.1 q hq, Heap.get_set_other _ _ _ _ hq]
    · simp only [List.foldl_cons]
      rw [H.2.1, Heap.get_set_self _ _ _ hr]
    · simp only [List.foldl_cons]
      rw [H.2.2, Heap.length_set]

/-- `ForeachKey` over a pair list with an undecodable pair: every pair
before it is decoded and visited (in order, exactly one visit each), the
failing pair stops iteration, and the decode error is returned. -/
theorem foreachKeyPairs_log_decode_error
    (decode : String → String → Except GoErr (String × String))
    (f : String × String → String × String) (k v : String) (e : GoErr)
    (after : List (String × String)) (hbad : decode k v = Except.error e) :
    ∀ (before : List (String × String)) (acc : List (String × String)),
      (∀ p ∈ before, decode p.1 p.2 = Except.ok (f p)) →
      foreachKeyPairs decode logHandler acc (before ++ (k, v) :: after)
        = (acc ++ before.map f, some e) := by
  intro before
  induction before with
  | nil =>
    intro acc _
    simp [foreachKeyPairs, hbad]
  | cons p rest ih =>
    intro acc hok
    obtain ⟨pk, pv⟩ := p
    have hp := hok (pk, pv) (by simp)
    have hrest : ∀ q ∈ rest, decode q.1 q.2 = Except.ok (f q) :=
      fun q hq => hok q (by simp [hq])
    rcases hf : f (pk, pv) with ⟨fk, fv⟩
    rw [hf] at hp
    simp only [List.cons_append, foreachKeyPairs, hp, logHandler, List.append_eq]
    rw [ih (acc ++ [(fk, fv)]) hrest]
    simp [hf]

/-- A context extended by a new span session and `ContextWithSpan` is a
different value from the context it was derived from. -/
theorem derived_ctx_ne (c : Ctx) (i j : Nat) :
    Ctx.withSpan (Ctx.withSession c i) j ≠ c := by
  intro hEq
  have hlt : sizeOf c < sizeOf (Ctx.withSpan (Ctx.withSession c i) j) := by
    simp
    omega
  rw [hEq] at hlt
  exact lt_irrefl _ hlt

/-! ## Claim theorems -/

/-- Claim C4: every interceptor returns to its caller exactly the error
value (or nil) produced by the wrapped invoker, streamer, or handler, and
the unary server additionally returns exactly the handler's response
value; telemetry is layered on top without replacing or suppressing
either. -/
theorem interceptors_pass_through_results :
    (∀ env : UnaryClientEnv, (runUnaryClient env).retErr = env.invokerErr)
    ∧ (∀ (α : Type) (host : String) (env : UnaryServerEnv α),
        (runUnaryServer host env).retResp = env.handlerResp
        ∧ (runUnaryServer host env).retErr = env.handlerErr)
    ∧ (∀ env : StreamClientEnv, (runStreamClient env).retErr = env.streamerErr)
    ∧ (∀ (host : String) (env : StreamServerEnv),
        (runStreamServer host env).retErr = env.handlerErr) := by
  refine ⟨fun env => ?_, fun α host env => ⟨?_, ?_⟩, fun env => ?_, fun host env => ?_⟩
  · cases h : env.invokerErr <;> simp [runUnaryClient, h]
  · cases h : env.handlerErr <;> simp [runUnaryServer, h]
  · cases h : env.handlerErr <;> simp [runUnaryServer, h]
  · cases h : env.streamerErr <;> simp [runStreamClient, h]
  · cases h : env.handlerErr <;> simp [runStreamServer, h]

/-- Claim C5: the client interceptors inject trace keys only into a fresh
copy of the caller's metadata object: the phase leaves the caller's object
unchanged, attaches a different object to the outgoing context, and that
object holds the copied contents plus the injected keys. -/
theorem trace_keys_injected_into_copy (h : Heap) (cr : Nat)
    (pairs : List (String × String)) (hcr : cr < h.cells.length) :
    (clientMDPhase h (some cr) pairs).2 ≠ cr
    ∧ (clientMDPhase h (some cr) pairs).1.get cr = h.get cr
    ∧ (clientMDPhase h (some cr) pairs).1.get (clientMDPhase h (some cr) pairs).2
        = outboundMD (some (h.get cr)) pairs := by
  have h2 : (clientMDPhase h (some cr) pairs).2 = h.cells.length := rfl
  have e1 : (clientMDPhase h (some cr) pairs).1
      = pairs.foldl (fun a kv => a.set h.cells.length (mdSet (a.get h.cells.length) kv.1 kv.2))
          (h.alloc (h.get cr)).1 := rfl
  have hrlt : h.cells.length < (h.alloc (h.get cr)).1.cells.length := by
    rw [Heap.length_alloc]
    omega
  have H := heap_fold_inject pairs h.cells.length (h.alloc (h.get cr)).1 hrlt
  refine ⟨?_, ?_, ?_⟩
  · rw [h2]
    omega
  · rw [e1, H.1 cr (by omega), Heap.get_alloc_old h _ cr hcr]
  · rw [h2, e1, H.2.1, Heap.get_alloc_new]
    rfl

/-- Witness for C5: a caller object holding one key, one injected trace
key. -/
theorem trace_keys_injected_into_copy_witness :
    (clientMDPhase ⟨[[("alpha", ["1"])]]⟩ (some 0) [("trace-id", "t1")]).2 ≠ 0
    ∧ (clientMDPhase ⟨[[("alpha", ["1"])]]⟩ (some 0) [("trace-id", "t1")]).1.get 0
        = Heap.get ⟨[[("alpha", ["1"])]]⟩ 0
    ∧ (clientMDPhase ⟨[[("alpha", ["1"])]]⟩ (some 0) [("trace-id", "t1")]).1.get
          (clientMDPhase ⟨[[("alpha", ["1"])]]⟩ (some 0) [("trace-id", "t1")]).2
        = outboundMD (some (Heap.get ⟨[[("alpha", ["1"])]]⟩ 0)) [("trace-id", "t1")] :=
  trace_keys_injected_into_copy ⟨[[("alpha", ["1"])]]⟩ 0 [("trace-id", "t1")] (by decide)

/-- Claim C6: for metadata containing an undecodable pair, `ForeachKey`
passes every pair before it to the visit callback exactly once, in
iteration order, stops at the first decode failure, returns the decode
error, and visits nothing after the failing pair. -/
theorem foreachKey_stops_at_first_decode_error
    (decode : String → String → Except GoErr (String × String))
    (f : String × String → String × String) (md : MD)
    (before after : List (String × String)) (k v : String) (e : GoErr)
    (hsplit : mdPairs md = before ++ (k, v) :: after)
    (hok : ∀ p ∈ before, decode p.1 p.2 = Except.ok (f p))
    (hbad : decode k v = Except.error e) :
    foreachKey decode logHandler [] md = (before.map f, some e) := by
  rw [foreachKey, hsplit,
    foreachKeyPairs_log_decode_error decode f k v e after hbad before [] hok]
  simp

/-- Witness for C6: three keys, the middle one undecodable; the two pairs
under the first key are visited, nothing after. -/
theorem foreachKey_decode_error_witness :
    foreachKey
      (fun k _ => if k = "bad" then Except.error ⟨"failed decoding"⟩ else Except.ok (k, k))
      logHandler []
      [("alpha", ["1", "2"]), ("bad", ["x"]), ("omega", ["z"])]
      = ([("alpha", "alpha"), ("alpha", "alpha")], some ⟨"failed decoding"⟩) :=
  foreachKey_stops_at_first_decode_error
    (fun k _ => if k = "bad" then Except.error ⟨"failed decoding"⟩ else Except.ok (k, k))
    (fun p => (p.1, p.1)) [("alpha", ["1", "2"]), ("bad", ["x"]), ("omega", ["z"])]
    [("alpha", "1"), ("alpha", "2")] [("omega", "z")] "bad" "x" ⟨"failed decoding"⟩
    rfl
    (by
      intro p hp
      simp only [List.mem_cons, List.mem_singleton] at hp
      rcases hp with h | h | h
      · subst h; rfl
      · subst h; rfl
      · cases h)
    rfl

/-- Claim C7: when extraction reports no parent span context
(`ErrSpanContextNotFound`), the unary server interceptor logs no warning,
starts a root span, and invokes the handler normally, returning its
result unchanged. -/
theorem extract_not_found_silent_root_span (α : Type) (host : String)
    (env : UnaryServerEnv α)
    (h : env.extract (fromContextMD env.inboundMD) = Except.error errSpanContextNotFound) :
    (runUnaryServer host env).warns = []
    ∧ (runUnaryServer host env).span.parent = none
    ∧ (runUnaryServer host env).handlerCalls = 1
    ∧ (runUnaryServer host env).retResp = env.handlerResp
    ∧ (runUnaryServer host env).retErr = env.handlerErr := by
  cases he : env.handlerErr <;>
    simp [runUnaryServer, h, he, SpanState.setTag, SpanState.start, SpanState.finish,
      Except.toOption]

/-- Witness for C7: empty inbound metadata, extraction not-found, handler
succeeds with response 42. -/
theorem extract_not_found_witness :
    (runUnaryServer "h1"
      { inboundMD := none, extract := fun _ => Except.error errSpanContextNotFound,
        handlerResp := (42 : Nat), handlerErr := none }).warns = []
    ∧ (runUnaryServer "h1"
      { inboundMD := none, extract := fun _ => Except.error errSpanContextNotFound,
        handlerResp := (42 : Nat), handlerErr := none }).span.parent = none
    ∧ (runUnaryServer "h1"
      { inboundMD := none, extract := fun _ => Except.error errSpanContextNotFound,
        handlerResp := (42 : Nat), handlerErr := none }).handlerCalls = 1
    ∧ (runUnaryServer "h1"
      { inboundMD := none, extract := fun _ => Except.error errSpanContextNotFound,
        handlerResp := (42 : Nat), handlerErr := none }).retResp = 42
    ∧ (runUnaryServer "h1"
      { inboundMD := none, extract := fun _ => Except.error errSpanContextNotFound,
        handlerResp := (42 : Nat), handlerErr := none }).retErr = none :=
  extract_not_found_silent_root_span Nat "h1" _ rfl

/-- Claim C8: when `tracer.Inject` fails, the unary client interceptor
logs a `tracer_inject` warning, still invokes the underlying call, and
returns the invoker's result; injection failure never becomes the call's
error. -/
theorem inject_failure_warns_and_call_proceeds (env : UnaryClientEnv) (e : GoErr)
    (h : env.injectErr = some e) :
    (runUnaryClient env).warns = ["tracer_inject"]
    ∧ (runUnaryClient env).invokerCalls = 1
    ∧ (runUnaryClient env).retErr = env.invokerErr := by
  cases hi : env.invokerErr <;> simp [runUnaryClient, h, hi]

/-- Witness for C8: a concrete call whose inject fails and whose invoker
succeeds. -/
theorem inject_failure_witness :
    (runUnaryClient
      { callerMD := none, injectPairs := [], injectErr := some ⟨"no span context"⟩,
        invokerErr := none }).warns = ["tracer_inject"]
    ∧ (runUnaryClient
      { callerMD := none, injectPairs := [], injectErr := some ⟨"no span context"⟩,
        invokerErr := none }).invokerCalls = 1
    ∧ (runUnaryClient
      { callerMD := none, injectPairs := [], injectErr := some ⟨"no span context"⟩,
        invokerErr := none }).retErr = none :=
  inject_failure_warns_and_call_proceeds _ ⟨"no span context"⟩ rfl

/-- Claim C1 counterexample: a streaming client call whose `streamer`
fails to open the stream, after which the caller performs no stream
operations; the span's completion callback never runs, so it is not
finalized exactly once. -/
theorem span_not_finalized_on_stream_open_failure :
    ¬ ((runClientStream (runStreamClient
      { callerMD := none, injectPairs := [], injectErr := none,
        streamerErr := some ⟨"connection refused"⟩ }).wrapper []).span.finishCount = 1) := by
  decide

/-- Claim C1 (amended): the unary client, unary server, and stream server
interceptors finalize their span exactly once per call; the stream client
interceptor's span is finalized once per `RecvMsg` returning the
end-of-stream signal — zero times when the open fails or the caller never
drains to end-of-stream, more than once if `RecvMsg` is called again after
end-of-stream. -/
theorem span_finalization_counts :
    (∀ env : UnaryClientEnv, (runUnaryClient env).span.finishCount = 1)
    ∧ (∀ (α : Type) (host : String) (env : UnaryServerEnv α),
        (runUnaryServer host env).span.finishCount = 1)
    ∧ (∀ (host : String) (env : StreamServerEnv),
        (runStreamServer host env).ssi.span.finishCount = 1)
    ∧ (∀ (env : StreamClientEnv) (ops : List StreamOp),
        (runClientStream (runStreamClient env).wrapper ops).span.finishCount
          = ops.countP isEOFRecv) := by
  refine ⟨fun env => ?_, fun α host env => ?_, fun host env => ?_, fun env ops => ?_⟩
  · cases h : env.invokerErr <;>
      simp [runUnaryClient, h, SpanState.finish, SpanState.setTag, SpanState.start]
  · cases h : env.handlerErr <;>
      simp [runUnaryServer, h, SpanState.finish, SpanState.setTag, SpanState.start]
  · cases h : env.handlerErr <;>
      simp [runStreamServer, h, ssiFinish, SpanState.finish, SpanState.setTag,
        serverStream_foldl_span, SpanState.start]
  · rw [runClientStream_finishCount]
    obtain ⟨-, -, h0⟩ := streamClient_wrapper_initial env
    rw [h0, Nat.zero_add]

/-- Claim C2 counterexample: a streaming client call whose `streamer`
fails; at return the span carries the errored tag but its completion
callback has not been invoked — finalization is not immediate. -/
theorem stream_open_failure_leaves_span_unfinalized :
    (runStreamClient
      { callerMD := none, injectPairs := [], injectErr := none,
        streamerErr := some ⟨"deadline exceeded"⟩ }).wrapper.span.getTag "error"
      = some (TagVal.bool true)
    ∧ (runStreamClient
      { callerMD := none, injectPairs := [], injectErr := none,
        streamerErr := some ⟨"deadline exceeded"⟩ }).retErr = some ⟨"deadline exceeded"⟩
    ∧ (runStreamClient
      { callerMD := none, injectPairs := [], injectErr := none,
        streamerErr := some ⟨"deadline exceeded"⟩ }).wrapper.span.finishCount = 0 := by
  decide

/-- Claim C2 (amended): on failure to open the stream, the client
streaming interceptor tags the span as errored, logs at info level, and
returns the wrapper together with the streamer's error, without invoking
the span's completion callback; the span is finalized only if the caller
later drains the wrapper to end-of-stream. -/
theorem stream_open_failure_tags_error_without_finalizing (env : StreamClientEnv)
    (e : GoErr) (h : env.streamerErr = some e) :
    (runStreamClient env).retErr = some e
    ∧ (runStreamClient env).wrapper.span.getTag "error" = some (TagVal.bool true)
    ∧ (runStreamClient env).wrapper.span.finishCount = 0
    ∧ (runStreamClient env).infos = ["error in gRPC"] := by
  refine ⟨?_, ?_, ?_, ?_⟩
  · simp [runStreamClient, h]
  · simp only [runStreamClient, h]
    exact getTag_setTag_self _ _ _
  · simp [runStreamClient, h, SpanState.setTag, SpanState.start]
  · simp [runStreamClient, h]

/-- Witness for C2 (amended) at a concrete failing open. -/
theorem stream_open_failure_witness :
    (runStreamClient
      { callerMD := some [("beta", ["2"])], injectPairs := [("trace-id", "t")],
        injectErr := none, streamerErr := some ⟨"unavailable"⟩ }).retErr = some ⟨"unavailable"⟩
    ∧ (runStreamClient
      { callerMD := some [("beta", ["2"])], injectPairs := [("trace-id", "t")],
        injectErr := none, streamerErr := some ⟨"unavailable"⟩ }).wrapper.span.getTag "error"
      = some (TagVal.bool true)
    ∧ (runStreamClient
      { callerMD := some [("beta", ["2"])], injectPairs := [("trace-id", "t")],
        injectErr := none, streamerErr := some ⟨"unavailable"⟩ }).wrapper.span.finishCount = 0
    ∧ (runStreamClient
      { callerMD := some [("beta", ["2"])], injectPairs := [("trace-id", "t")],
        injectErr := none, streamerErr := some ⟨"unavailable"⟩ }).infos = ["error in gRPC"] :=
  stream_open_failure_tags_error_without_finalizing _ ⟨"unavailable"⟩ rfl

/-- Claim C3: on a client stream whose caller performs N `SendMsg` calls
and M successful `RecvMsg` calls (in any order) and then receives the
end-of-stream signal, the span is finalized carrying recorded counts of
exactly N sent and M received. -/
theorem client_stream_final_counts (env : StreamClientEnv) (pre : List StreamOp)
    (N M : Nat)
    (hpre : ∀ op ∈ pre, (∃ r, op = StreamOp.send r) ∨ op = StreamOp.recv none)
    (hN : pre.countP isSendOp = N) (hM : pre.countP isRecvOp = M) :
    (runClientStream (runStreamClient env).wrapper
        (pre ++ [StreamOp.recv (some ioEOF)])).span.getTag "grpc.stream_received"
      = some (TagVal.nat M)
    ∧ (runClientStream (runStreamClient env).wrapper
        (pre ++ [StreamOp.recv (some ioEOF)])).span.getTag "grpc.stream_sent"
      = some (TagVal.nat N)
    ∧ (runClientStream (runStreamClient env).wrapper
        (pre ++ [StreamOp.recv (some ioEOF)])).span.finishCount = 1 := by
  have hno : ∀ op ∈ pre, op ≠ StreamOp.recv (some ioEOF) := by
    intro op hop hEq
    rcases hpre op hop with ⟨r, hs⟩ | hr
    · rw [hEq] at hs
      simp at hs
    · rw [hEq] at hr
      simp [ioEOF] at hr
  obtain ⟨h1, h2, h3⟩ := clientStream_drain_eof (runStreamClient env).wrapper pre hno
  obtain ⟨w1, w2, w3⟩ := streamClient_wrapper_initial env
  rw [w1, Nat.zero_add] at h1
  rw [w2, Nat.zero_add] at h2
  rw [w3, Nat.zero_add] at h3
  exact ⟨by rw [h1, hM], by rw [h2, hN], h3⟩

/-- Witness for C3: two sends and three successful receives, then
end-of-stream. -/
theorem client_stream_final_counts_witness :
    (runClientStream (runStreamClient
      { callerMD := none, injectPairs := [], injectErr := none, streamerErr := none }).wrapper
        ([StreamOp.send none, StreamOp.recv none, StreamOp.send none,
          StreamOp.recv none, StreamOp.recv none]
          ++ [StreamOp.recv (some ioEOF)])).span.getTag "grpc.stream_received"
      = some (TagVal.nat 3)
    ∧ (runClientStream (runStreamClient
      { callerMD := none, injectPairs := [], injectErr := none, streamerErr := none }).wrapper
        ([StreamOp.send none, StreamOp.recv none, StreamOp.send none,
          StreamOp.recv none, StreamOp.recv none]
          ++ [StreamOp.recv (some ioEOF)])).span.getTag "grpc.stream_sent"
      = some (TagVal.nat 2)
    ∧ (runClientStream (runStreamClient
      { callerMD := none, injectPairs := [], injectErr := none, streamerErr := none }).wrapper
        ([StreamOp.send none, StreamOp.recv none, StreamOp.send none,
          StreamOp.recv none, StreamOp.recv none]
          ++ [StreamOp.recv (some ioEOF)])).span.finishCount = 1 :=
  client_stream_final_counts _ _ 2 3
    (by
      intro op hop
      simp only [List.mem_cons, List.mem_singleton] at hop
      rcases hop with h | h | h | h | h | h
      · exact Or.inl ⟨none, h⟩
      · exact Or.inr h
      · exact Or.inl ⟨none, h⟩
      · exact Or.inr h
      · exact Or.inr h
      · cases h)
    rfl rfl

/-- Claim C9: `Context()` on the wrapper handed to the server stream
handler returns the derived span-bearing context built over the stream's
original context, and not the original context itself. -/
theorem server_stream_context_is_derived (host : String) (env : StreamServerEnv) :
    ssiContext (runStreamServer host env).ssi
      = Ctx.withSpan (Ctx.withSession env.origCtx env.newSpanId) env.newSpanId
    ∧ ssiContext (runStreamServer host env).ssi ≠ env.origCtx := by
  have hctx : ssiContext (runStreamServer host env).ssi
      = Ctx.withSpan (Ctx.withSession env.origCtx env.newSpanId) env.newSpanId := by
    cases he : env.handlerErr <;>
      simp [runStreamServer, he, ssiContext, ssiFinish, serverStream_foldl_ctx]
  refine ⟨hctx, ?_⟩
  rw [hctx]
  exact derived_ctx_ne env.origCtx env.newSpanId env.newSpanId

/-- Claim C10: both stream proxies count `RecvMsg` invocations rather than
successful receives — the server proxy increments on every call (errors
included), the client proxy on every call whose result is not `io.EOF`
(other errors included) — and the finalized span's received count equals
the number of such invocations. -/
theorem recv_counters_count_invocations :
    (∀ (s : ServerStreamSt) (res : Option GoErr),
        (ssiRecvMsg s res).1.inCount = s.inCount + 1)
    ∧ (∀ (s : ClientStreamSt) (res : Option GoErr), res ≠ some ioEOF →
        (csiRecvMsg s res).1.inCount = s.inCount + 1)
    ∧ (∀ s : ClientStreamSt, (csiRecvMsg s (some ioEOF)).1.inCount = s.inCount)
    ∧ (∀ (host : String) (env : StreamServerEnv),
        (runStreamServer host env).ssi.span.getTag "grpc.stream_received"
          = some (TagVal.nat (env.handlerOps.countP isRecvOp)))
    ∧ (∀ (env : StreamClientEnv) (pre : List StreamOp),
        (∀ op ∈ pre, op ≠ StreamOp.recv (some ioEOF)) →
        (runClientStream (runStreamClient env).wrapper
            (pre ++ [StreamOp.recv (some ioEOF)])).span.getTag "grpc.stream_received"
          = some (TagVal.nat (pre.countP isRecvOp))) := by
  refine ⟨fun s res => rfl, fun s res hres => ?_, fun s => ?_, fun host env => ?_,
    fun env pre hno => ?_⟩
  · simp [csiRecvMsg, hres]
  · simp [csiRecvMsg]
  · have hne : ("grpc.stream_received" : String) ≠ "grpc.stream_sent" := by decide
    cases he : env.handlerErr <;>
      simp [runStreamServer, he, ssiFinish, getTag_finish, getTag_setTag_self,
        serverStream_foldl_inCount, getTag_setTag_other _ _ _ _ hne]
  · obtain ⟨h1, -, -⟩ := clientStream_drain_eof (runStreamClient env).wrapper pre hno
    obtain ⟨w1, -, -⟩ := streamClient_wrapper_initial env
    rw [w1, Nat.zero_add] at h1
    exact h1

/-- Witness for C10: a client receive returning a non-EOF error is
counted, and a drained stream records error receives in its final count. -/
theorem recv_counters_witness :
    (csiRecvMsg { span := SpanState.start none, inCount := 4, outCount := 2 }
        (some ⟨"transport closing"⟩)).1.inCount = 5
    ∧ (runClientStream (runStreamClient
      { callerMD := none, injectPairs := [], injectErr := none, streamerErr := none }).wrapper
        ([StreamOp.recv none, StreamOp.recv (some ⟨"transport closing"⟩)]
          ++ [StreamOp.recv (some ioEOF)])).span.getTag "grpc.stream_received"
      = some (TagVal.nat 2) := by
  refine ⟨?_, ?_⟩
  · exact recv_counters_count_invocations.2.1 _ _ (by decide)
  · exact recv_counters_count_invocations.2.2.2.2 _ _ (by decide)

end Obs
